import Mathlib

/-!
Shallow embedding of the variational-Bayes core of the `aboleth` repository
(`src/aboleth/distributions.py` and `src/aboleth/layers.py`), together with
theorems settling the frozen claims about it.

Conventions of the embedding:
* tensors of shape `(a, b)` are functions `Fin a → Fin b → ℝ`; a batch of
  square matrices of shape `(n, m, m)` is `Fin n → Matrix (Fin m) (Fin m) ℝ`;
* floating point arithmetic is modelled over `ℝ`;
* `tf.reduce_sum` is `Finset.sum` over all indices;
* scalar results of a reduction are represented, where they meet tensors,
  as constant (broadcast) tensors, matching TensorFlow broadcasting;
* fallible Python evaluation is modelled with `Except`.
-/

namespace Aboleth

open Matrix

/-- Diagonal (IID) Normal distribution of `distributions.Normal`:
`mu` and `var` both of shape `[d_i, d_o]` (a scalar variance is the
corresponding constant tensor, by broadcasting). -/
structure Normal (m n : ℕ) where
  mu : Fin m → Fin n → ℝ
  var : Fin m → Fin n → ℝ

/-- Full-covariance Gaussian of `distributions.Gaussian`: `mu` of shape
`[d_i, d_o]` and `L`, the per-output-column Cholesky factors, of shape
`[d_o, d_i, d_i]`. -/
structure Gaussian (m n : ℕ) where
  mu : Fin m → Fin n → ℝ
  L : Fin n → Matrix (Fin m) (Fin m) ℝ

/-- `Gaussian.transform_w`: `tf.expand_dims(tf.transpose(w), 2)`,
`[d_i, d_o] -> [d_o, d_i, 1]`. -/
def transform_w {m n : ℕ} (w : Fin m → Fin n → ℝ) : Fin n → Fin m → Fin 1 → ℝ :=
  fun o i _ => w i o

/-- `Gaussian.itransform_w`: `tf.transpose(wt[:, :, 0])`,
`[d_o, d_i, 1] -> [d_i, d_o]`. -/
def itransform_w {m n : ℕ} (wt : Fin n → Fin m → Fin 1 → ℝ) : Fin m → Fin n → ℝ :=
  fun i o => wt o i 0

/-- `distributions._chollogdet`: log det of a batch of Cholesky factors,
`2 * reduce_sum(log(maximum(matrix_diag_part(L), 1e-15)))`. -/
noncomputable def chollogdet {m n : ℕ} (L : Fin n → Matrix (Fin m) (Fin m) ℝ) : ℝ :=
  2 * ∑ o, ∑ i, Real.log (max (L o i i) 1e-15)

/-- The `kl_qp(Normal, Normal)` dispatch branch:
`reduce_sum(0.5 * (log(p.var) - log(q.var) + q.var / p.var - 1 + (q.mu - p.mu)^2 / p.var))`. -/
noncomputable def klQpNormalNormal {m n : ℕ} (q p : Normal m n) : ℝ :=
  ∑ i, ∑ j,
    0.5 * (Real.log (p.var i j) - Real.log (q.var i j) + q.var i j / p.var i j - 1 +
      (q.mu i j - p.mu i j) ^ 2 / p.var i j)

/-- `tf.cholesky_solve(L, B)`: solves `(L * Lᵀ) X = B` for `X`. -/
noncomputable def choleskySolve {m : ℕ} {κ : Type} [Fintype κ]
    (L : Matrix (Fin m) (Fin m) ℝ) (B : Matrix (Fin m) κ ℝ) : Matrix (Fin m) κ ℝ :=
  (L * Lᵀ)⁻¹ * B

/-- The `kl_qp(Gaussian, Gaussian)` dispatch branch: trace via
`cholesky_solve(p.L, q.L qᵀ.L)`, Mahalanobis distance via
`cholesky_solve(p.L, transform_w(p.mu - q.mu))`, and the Cholesky
log-determinants, combined as `0.5 * (tr + dist + logdet - n * D)`. -/
noncomputable def klQpGaussianGaussian {m n : ℕ} (q p : Gaussian m n) : ℝ :=
  let D : ℝ := m
  let nc : ℝ := n
  let tr := ∑ o, Matrix.trace (choleskySolve (p.L o) (q.L o * (q.L o)ᵀ))
  let md : Fin n → Matrix (Fin m) (Fin 1) ℝ :=
    fun o => Matrix.of fun i z => transform_w (fun a b => p.mu a b - q.mu a b) o i z
  let dist := ∑ o, ∑ i, md o i 0 * choleskySolve (p.L o) (md o) i 0
  let logdet := chollogdet p.L - chollogdet q.L
  0.5 * (tr + dist + logdet - nc * D)

/-- Error raised when `kl_qp` is called on a pair of distribution kinds
with no registered divergence rule. -/
inductive KLErr where
  | noDivergenceRule

/-- Tagged union of the two distribution variants, for the dispatch level of
`kl_qp` (the `multipledispatch` table of `distributions.py`). -/
inductive Dist (m n : ℕ) where
  | normal (mu var : Fin m → Fin n → ℝ)
  | gaussian (mu : Fin m → Fin n → ℝ) (L : Fin n → Matrix (Fin m) (Fin m) ℝ)

/-- The dispatcher `kl_qp(q, p)`. Three registered `(posterior, prior)`
combinations; the fourth, `(Normal, Gaussian)`, has no rule and raising is
modelled with `Except.error`. In the `(Gaussian, Normal)` branch the source
divides the scalar reductions by the tensor `p.var` and subtracts the scalar
`_chollogdet(q.L)` from `n * D * log(p.var)`; under TensorFlow broadcasting
the result is elementwise in `p.var`, which is how it is written here
(for the scalar priors built by `norm_prior`, `p.var` is a constant tensor
and the result is a constant tensor). Scalar results of the other branches
are likewise returned as constant tensors. -/
noncomputable def kl_qp {m n : ℕ} : Dist m n → Dist m n → Except KLErr (Fin m → Fin n → ℝ)
  | .normal qmu qvar, .normal pmu pvar =>
      .ok fun _ _ => klQpNormalNormal ⟨qmu, qvar⟩ ⟨pmu, pvar⟩
  | .gaussian qmu qL, .normal pmu pvar =>
      .ok fun i j =>
        0.5 * ((∑ o, ∑ a, ∑ b, qL o a b * qL o a b) / pvar i j +
          (∑ a, ∑ b, (pmu a b - qmu a b) ^ 2) / pvar i j +
          ((n : ℝ) * (m : ℝ) * Real.log (pvar i j) - chollogdet qL) -
          (n : ℝ) * (m : ℝ))
  | .gaussian qmu qL, .gaussian pmu pL =>
      .ok fun _ _ => klQpGaussianGaussian ⟨qmu, qL⟩ ⟨pmu, pL⟩
  | .normal _ _, .gaussian _ _ => .error .noDivergenceRule

/-- Squared Frobenius norm of a square matrix (spec-side notion used by the
claim about the `(Gaussian, Normal)` KL formula). -/
def sqFrobenius {m : ℕ} (A : Matrix (Fin m) (Fin m) ℝ) : ℝ :=
  ∑ i, ∑ j, A i j ^ 2

/-- C8: for every weight matrix `w` of shape `(input_dim, output_dim)`,
`itransform_w (transform_w w) = w`: the `[d_i, d_o] -> [d_o, d_i, 1]`
transform followed by its inverse recovers the matrix exactly. -/
theorem transform_w_roundtrip {m n : ℕ} (w : Fin m → Fin n → ℝ) :
    itransform_w (transform_w w) = w := rfl

/-- C3: for every diagonal (Normal) posterior `q` and every full-covariance
(Gaussian) prior `p`, `kl_qp q p` fails with the no-divergence-rule error and
never returns a value. -/
theorem kl_qp_normal_gaussian_fails {m n : ℕ} (qmu qvar : Fin m → Fin n → ℝ)
    (pmu : Fin m → Fin n → ℝ) (pL : Fin n → Matrix (Fin m) (Fin m) ℝ) :
    kl_qp (.normal qmu qvar) (.gaussian pmu pL) = .error .noDivergenceRule := rfl

/-- C2: for every full-covariance posterior `q` over a `(D, n)` weight matrix
and every diagonal prior with scalar variance `c`, `kl_qp` returns
`0.5 * (trace + dist + logdet - n * D)` where `trace` is the squared Frobenius
norm of the Cholesky factors divided by `c`, `dist` is the sum of squared mean
differences divided by `c`, and `logdet` is `n * D * log c` minus the Cholesky
log-determinant `2 * Σ log (max (diag L) 1e-15)`. -/
theorem kl_qp_gaussian_normal_formula {m n : ℕ} (qmu : Fin m → Fin n → ℝ)
    (qL : Fin n → Matrix (Fin m) (Fin m) ℝ) (pmu : Fin m → Fin n → ℝ) (c : ℝ) :
    kl_qp (.gaussian qmu qL) (.normal pmu (fun _ _ => c)) =
      .ok fun _ _ =>
        0.5 * ((∑ o, sqFrobenius (qL o)) / c +
          (∑ a, ∑ b, (pmu a b - qmu a b) ^ 2) / c +
          ((n : ℝ) * (m : ℝ) * Real.log c -
            2 * ∑ o, ∑ i, Real.log (max (qL o i i) 1e-15)) -
          (n : ℝ) * (m : ℝ)) := by
  simp only [kl_qp, Except.ok.injEq]
  funext i j
  simp only [sqFrobenius, chollogdet, pow_two]

theorem klQpNormalNormal_self_eq_zero {m n : ℕ} (mu v : Fin m → Fin n → ℝ)
    (hv : ∀ i j, 0 < v i j) : klQpNormalNormal ⟨mu, v⟩ ⟨mu, v⟩ = 0 := by
  unfold klQpNormalNormal
  refine Finset.sum_eq_zero fun i _ => Finset.sum_eq_zero fun j _ => ?_
  have h2 : v i j / v i j = 1 := div_self (hv i j).ne'
  simp only [sub_self, h2]
  ring

theorem klQpGaussianGaussian_self_eq_zero {m n : ℕ} (mu : Fin m → Fin n → ℝ)
    (L : Fin n → Matrix (Fin m) (Fin m) ℝ) (hL : ∀ o, (L o).det ≠ 0) :
    klQpGaussianGaussian ⟨mu, L⟩ ⟨mu, L⟩ = 0 := by
  have htr : ∀ o : Fin n, choleskySolve (L o) (L o * (L o)ᵀ) = 1 := by
    intro o
    unfold choleskySolve
    refine Matrix.nonsing_inv_mul _ (isUnit_iff_ne_zero.mpr ?_)
    rw [Matrix.det_mul, Matrix.det_transpose]
    exact mul_ne_zero (hL o) (hL o)
  have hmd : ∀ o : Fin n,
      (Matrix.of fun i z => transform_w (fun a b => mu a b - mu a b) o i z) =
        (0 : Matrix (Fin m) (Fin 1) ℝ) := by
    intro o
    ext i z
    simp [transform_w]
  simp only [klQpGaussianGaussian, hmd, htr]
  simp [Matrix.trace_one, Finset.sum_const, Finset.card_univ, nsmul_eq_mul, mul_comm]

/-- C5: whenever `q` and `p` have identical mean and identical (co)variance
parameters, `kl_qp q p` is zero, both for a pair of diagonal Normal
distributions (with elementwise positive variance) and for a pair of
full-covariance Gaussian distributions (with nonsingular Cholesky factors). -/
theorem kl_qp_identical_params_zero {m n : ℕ} :
    (∀ (mu v : Fin m → Fin n → ℝ), (∀ i j, 0 < v i j) →
      kl_qp (.normal mu v) (.normal mu v) = .ok fun _ _ => 0) ∧
    (∀ (mu : Fin m → Fin n → ℝ) (L : Fin n → Matrix (Fin m) (Fin m) ℝ),
      (∀ o, (L o).det ≠ 0) →
      kl_qp (.gaussian mu L) (.gaussian mu L) = .ok fun _ _ => 0) := by
  constructor
  · intro mu v hv
    simp only [kl_qp, Except.ok.injEq]
    funext a b
    exact klQpNormalNormal_self_eq_zero mu v hv
  · intro mu L hL
    simp only [kl_qp, Except.ok.injEq]
    funext a b
    exact klQpGaussianGaussian_self_eq_zero mu L hL

/-- Witness for C5: the diagonal case at shape `(3, 2)` with mean `0` and
variance `1`, and the full-covariance case at shape `(1, 1)` with identity
Cholesky factor, both give a zero KL. -/
theorem kl_qp_identical_params_zero_witness :
    kl_qp (Dist.normal (fun _ _ => (0 : ℝ)) (fun _ _ => 1) : Dist 3 2)
        (Dist.normal (fun _ _ => 0) (fun _ _ => 1)) = (.ok fun _ _ => 0) ∧
    kl_qp (Dist.gaussian (fun _ _ => (0 : ℝ)) (fun _ => (1 : Matrix (Fin 1) (Fin 1) ℝ)) : Dist 1 1)
        (Dist.gaussian (fun _ _ => 0) (fun _ => 1)) = (.ok fun _ _ => 0) :=
  ⟨kl_qp_identical_params_zero.1 (fun _ _ => 0) (fun _ _ => 1) (fun _ _ => one_pos),
   kl_qp_identical_params_zero.2 (fun _ _ => 0) (fun _ => 1) (fun _ => by simp)⟩

/-- `np.tril_indices(I)` as a row-major list of `(row, col)` pairs,
`(0,0), (1,0), (1,1), (2,0), ...`. -/
def trilPairs : ℕ → List (ℕ × ℕ)
  | 0 => []
  | k + 1 => trilPairs k ++ (List.range (k + 1)).map (fun v => (k, v))

theorem mem_trilPairs {I : ℕ} {p : ℕ × ℕ} (hp : p ∈ trilPairs I) :
    p.2 ≤ p.1 ∧ p.1 < I := by
  induction I with
  | zero => simp [trilPairs] at hp
  | succ k ih =>
    simp only [trilPairs, List.mem_append, List.mem_map, List.mem_range] at hp
    rcases hp with h | ⟨v, hv, hpe⟩
    · exact ⟨(ih h).1, Nat.lt_succ_of_lt (ih h).2⟩
    · subst hpe
      exact ⟨Nat.lt_succ_iff.mp hv, Nat.lt_succ_self k⟩

/-- Position of the first element of a list satisfying a predicate
(the inverse index map realised by `tf.scatter_nd`). -/
def findPos {α : Type} (pred : α → Bool) : List α → Option ℕ
  | [] => none
  | x :: xs => if pred x then some 0 else (findPos pred xs).map (· + 1)

theorem findPos_eq_none {α : Type} (pred : α → Bool) (l : List α)
    (h : ∀ x ∈ l, pred x = false) : findPos pred l = none := by
  induction l with
  | nil => rfl
  | cons x xs ih =>
    simp [findPos, h x (List.mem_cons_self x xs),
      ih fun y hy => h y (List.mem_cons_of_mem x hy)]

/-- `tf.scatter_nd(indices, l, shape=(I*I, O))` of `gaus_posterior`, where
`indices` is the column of flattened lower-triangular positions
`u * I + v` for `(u, v) = np.tril_indices(I)`: row `r` of the result is the
row of trainable entries `l k` when `r` is the `k`-th flattened
lower-triangular index, and a zero row otherwise. -/
def scatterTril (I : ℕ) (l : ℕ → ℕ → ℝ) (r o : ℕ) : ℝ :=
  match findPos (fun p => p.1 * I + p.2 == r) (trilPairs I) with
  | some k => l k o
  | none => 0

/-- The batch of Cholesky factors built by `distributions.gaus_posterior` for
shape `(I, O)`: `L = reshape(transpose(scatter_nd(indices, l, (I*I, O))), (O, I, I))`,
so `L[o, i, j]` is the scattered entry at flat position `i * I + j` of column `o`.
The trainable entries `l` are left arbitrary (the source initialises them to an
identity pattern perturbed by a Gamma draw and then optimises them; the claim
concerns every value they may take). -/
def gausPosteriorL (I O : ℕ) (l : ℕ → ℕ → ℝ) (o : Fin O) (i j : Fin I) : ℝ :=
  scatterTril I l ((i : ℕ) * I + (j : ℕ)) (o : ℕ)

/-- C7: for every shape `(I, O)` and every values of the trainable entries,
each per-column `I × I` factor built by `gaus_posterior` has all
strictly-upper-triangular entries equal to zero: only lower-triangular
positions receive scattered entries. -/
theorem gausPosterior_strict_upper_zero (I O : ℕ) (l : ℕ → ℕ → ℝ)
    (o : Fin O) (i j : Fin I) (hij : (i : ℕ) < (j : ℕ)) :
    gausPosteriorL I O l o i j = 0 := by
  have hI : 0 < I := i.pos
  unfold gausPosteriorL scatterTril
  rw [findPos_eq_none]
  intro p hp
  obtain ⟨hvu, huI⟩ := mem_trilPairs hp
  have hp2 : p.2 < I := lt_of_le_of_lt hvu huI
  simp only [beq_eq_false_iff_ne, ne_eq]
  intro he
  have h1 : (p.1 * I + p.2) / I = p.1 := by
    rw [Nat.mul_comm p.1 I, Nat.mul_add_div hI, Nat.div_eq_of_lt hp2, Nat.add_zero]
  have h2 : ((i : ℕ) * I + (j : ℕ)) / I = (i : ℕ) := by
    rw [Nat.mul_comm (i : ℕ) I, Nat.mul_add_div hI, Nat.div_eq_of_lt j.isLt, Nat.add_zero]
  have hu : p.1 = (i : ℕ) := by rw [← h1, he, h2]
  rw [hu] at he
  have hv2 : p.2 = (j : ℕ) := Nat.add_left_cancel he
  omega

/-- Witness for C7: at shape `(2, 1)` with all trainable entries `1`, the
entry above the diagonal of the single factor is zero. -/
theorem gausPosterior_strict_upper_zero_witness :
    (((0 : Fin 2) : ℕ) < ((1 : Fin 2) : ℕ)) ∧
    gausPosteriorL 2 1 (fun _ _ => 1) 0 0 1 = 0 :=
  ⟨by decide, gausPosterior_strict_upper_zero 2 1 (fun _ _ => 1) 0 0 1 (by decide)⟩

/-! Layers (`src/aboleth/layers.py`). The claims about `DenseVariational`
and `EmbedVariational` concern which distribution kinds the layer resolves,
and the exceptions its forward evaluation raises; the distributions are
therefore tracked at the level of their variant kind, and Python evaluation
is modelled with `Except`. -/

/-- Python exceptions raised by the layer code paths modelled here.
`noDivergenceRule` is the `NotImplementedError` that `multipledispatch`
raises when `kl_qp` is called on a pair of kinds with no registered rule
(the spec's `NoDivergenceRule`). -/
inductive PyErr where
  | typeErrorNotCallable
  | attributeError
  | valueError
  | noDivergenceRule

/-- The variant kind of a prior/posterior distribution object. -/
inductive DistKind where
  | normalK
  | gaussianK

/-- Python truthiness of the `input_dim` argument of `_make_posterior`
(`None` and `0` are falsy). -/
def optNatTruthy : Option ℕ → Bool
  | none => false
  | some d => d != 0

/-- `DenseVariational._make_prior`: a supplied prior is kept (after a shape
assertion, not modelled here since no claim supplies a prior), otherwise
`norm_prior` builds a diagonal Normal. -/
def makePrior (prior : Option DistKind) : DistKind :=
  prior.getD .normalK

/-- `DenseVariational._make_posterior`: a supplied posterior is kept (after a
shape assertion, not modelled here since no claim supplies a posterior);
otherwise `fullcov = self.full and input_dim` decides between
`gaus_posterior` and `norm_posterior` — for the intercept call, `input_dim`
is `None`, which is falsy. -/
def makePosterior (post : Option DistKind) (full : Bool) (input_dim : Option ℕ) : DistKind :=
  match post with
  | some k => k
  | none => if full && optNatTruthy input_dim then .gaussianK else .normalK

/-- The kind-level image of the `kl_qp` dispatch table (the value-level
dispatcher is `kl_qp` above): rules are registered for `(Normal, Normal)`,
`(Gaussian, Normal)` and `(Gaussian, Gaussian)`, and for no other pair. -/
def klRuleExists (q p : DistKind) : Bool :=
  match p with
  | .normalK => true
  | .gaussianK =>
    match q with
    | .normalK => false
    | .gaussianK => true

/-- Evaluating `kl_qp(q, p)` at the layer level: when the pair of kinds has a
registered rule the graph node is built (none of the three rule bodies
raises), otherwise `multipledispatch` raises `NotImplementedError`. -/
def klQpCall (q p : DistKind) : Except PyErr Unit :=
  if klRuleExists q p then .ok () else .error .noDivergenceRule

/-- Calling a distribution object, `dist()`, as `_sample_W` does: neither
`distributions.Normal` nor `distributions.Gaussian` defines `__call__`
(they expose `sample()` instead), so the call raises
`TypeError: object is not callable`. -/
def distCall (_d : DistKind) : Except PyErr Unit :=
  .error .typeErrorNotCallable

/-- The list comprehension `[dist() for _ in range(n_samples)]`. -/
def sampleWList (d : DistKind) : ℕ → Except PyErr (List Unit)
  | 0 => .ok []
  | k + 1 => do
      let x ← distCall d
      let xs ← sampleWList d k
      .ok (x :: xs)

/-- `tf.stack` of a list of tensors; stacking an empty list raises
`ValueError` (the shape cannot be inferred). -/
def tfStack (l : List Unit) : Except PyErr (List Unit) :=
  if l.isEmpty then .error .valueError else .ok l

/-- `DenseVariational._sample_W(dist, n_samples)`:
`tf.stack([dist() for _ in range(n_samples)])`. -/
def sampleW (d : DistKind) (n_samples : ℕ) : Except PyErr (List Unit) := do
  let samples ← sampleWList d n_samples
  tfStack samples

/-- The constructor arguments of `DenseVariational.__init__`, stored on the
instance as `output_dim`, `reg`, `full`, `use_bias`, `pW`, `pb`, `qW`, `qb`. -/
structure DenseVariational where
  output_dim : ℕ
  reg : ℝ
  full : Bool
  use_bias : Bool
  pW : Option DistKind
  pb : Option DistKind
  qW : Option DistKind
  qb : Option DistKind

/-- The attribute names `DenseVariational.__init__` assigns on `self`
(lines 404 to 411 of `layers.py`). -/
def denseVariationalInitAttrs : List String :=
  ["output_dim", "reg", "full", "use_bias", "pW", "pb", "qW", "qb"]

/-- Python attribute lookup on an instance whose `__dict__` holds the given
names: a missing name raises `AttributeError`. -/
def getattr (attrs : List String) (name : String) : Except PyErr Unit :=
  if name ∈ attrs then .ok () else .error .attributeError

/-- The bias guard of `DenseVariational.build`:
`self.use_bias is True or self.prior_b or self.post_b`. The `or` chain
short-circuits, so when `use_bias` is `True` no attribute is read; otherwise
`self.prior_b` is looked up (and then `self.post_b`), and the truthiness of
those values would decide the guard — a branch never reached, because the
lookups fail. -/
def biasGuard (use_bias : Bool) : Except PyErr Bool := do
  if use_bias then
    return true
  let _ ← getattr denseVariationalInitAttrs "prior_b"
  let _ ← getattr denseVariationalInitAttrs "post_b"
  return true

/-- `DenseVariational.build(X)` for a rank-3 input of shape
`(ns, batch, idim)`, in source order: the weight prior/posterior are
resolved, `KL = kl_qp(self.qW, self.pW)` is evaluated (raising when the pair
of kinds has no dispatch rule), then `_sample_W(qW, n_samples)`; after that
the matmul, the bias guard and the bias path, whose own `kl_qp(qb, pb)` and
`_sample_W(qb, n_samples)` are included. The `_is_dim` assertion inside
`_make_prior`/`_make_posterior` concerns the shape of a supplied
distribution, which this kind-level model does not track (every claim that
supplies a distribution supplies one of the layer's own shape). The
successful-return payload is abstract (`Unit × Unit` standing for
`(Net, KL)`): no claim concerns a successful return, and none occurs, since
`_sample_W` raises on every call. -/
def buildDense (l : DenseVariational) (ns batch idim : ℕ)
    (X : Fin ns → Fin batch → Fin idim → ℝ) : Except PyErr (Unit × Unit) := do
  let _ := X
  let pW := makePrior l.pW
  let qW := makePosterior l.qW l.full (some idim)
  let _KL ← klQpCall qW pW
  let _W ← sampleW qW ns
  let g ← biasGuard l.use_bias
  if g then
    let pb := makePrior l.pb
    let qb := makePosterior l.qb l.full none
    let _KLb ← klQpCall qb pb
    let _b ← sampleW qb ns
    return ((), ())
  return ((), ())

/-- `Except` success test. -/
def isOkE {α : Type} : Except PyErr α → Bool
  | .ok _ => true
  | .error _ => false

/-- C1 (code bug): `build` never performs the sampled-weight matmul the
claim describes. For every layer with no supplied weight distributions (the
claim's failing input among them) and every rank-3 input with at least one
sample slice, the weight KL dispatch `(Normal-or-Gaussian posterior, Normal
prior)` succeeds and `build` then raises `TypeError` inside `_sample_W` —
`dist()` is called on a `Normal`/`Gaussian` object that defines no
`__call__`, where the claim requires `n_samples` calls of `sample()`.
When instead a `Gaussian` prior is supplied with the default diagonal
posterior, `build` raises the no-divergence-rule error already at the
`kl_qp(self.qW, self.pW)` step, before `_sample_W` is reached; in neither
case is the claimed stacked-sample output produced. -/
theorem denseVariational_build_raises :
    (∀ (odim : ℕ) (reg : ℝ) (full ub : Bool) (pb qb : Option DistKind)
      (k batch idim : ℕ) (X : Fin (k + 1) → Fin batch → Fin idim → ℝ),
      buildDense ⟨odim, reg, full, ub, none, pb, none, qb⟩ (k + 1) batch idim X =
        .error .typeErrorNotCallable) ∧
    (∀ (odim : ℕ) (reg : ℝ) (ub : Bool) (pb qb : Option DistKind)
      (ns batch idim : ℕ) (X : Fin ns → Fin batch → Fin idim → ℝ),
      buildDense ⟨odim, reg, false, ub, some .gaussianK, pb, none, qb⟩ ns batch idim X =
        .error .noDivergenceRule) :=
  ⟨fun _ _ _ _ _ _ _ _ _ _ => rfl, fun _ _ _ _ _ _ _ _ _ => rfl⟩

/-- C4 (code bug): evaluating a fixed dense layer on inputs with leading
sample dimension 1 and 8 returns no KL scalar at all in either case: both
evaluations raise `TypeError` in `_sample_W` before the `(Net, KL)` pair is
returned. -/
theorem denseVariational_no_kl_returned :
    buildDense ⟨2, 1, false, true, none, none, none, none⟩ 1 5 4 (fun _ _ _ => 0) =
      .error .typeErrorNotCallable ∧
    buildDense ⟨2, 1, false, true, none, none, none, none⟩ 8 5 4 (fun _ _ _ => 0) =
      .error .typeErrorNotCallable :=
  ⟨rfl, rfl⟩

/-- C6: with no explicit posterior supplied, `_make_posterior` called for the
intercept (no `input_dim`) builds a diagonal Normal posterior even when
`full = true`, while the weight call (positive `input_dim`) builds a
full-covariance Gaussian posterior. -/
theorem makePosterior_bias_diagonal (d : ℕ) :
    makePosterior none true none = DistKind.normalK ∧
    makePosterior none true (some (d + 1)) = DistKind.gaussianK := by
  refine ⟨rfl, ?_⟩
  simp [makePosterior, optNatTruthy]

theorem sampleW_eq_error (q : DistKind) (ns : ℕ) :
    sampleW q ns =
      .error (match ns with | 0 => PyErr.valueError | _ + 1 => PyErr.typeErrorNotCallable) := by
  cases ns <;> rfl

theorem errBind {α β : Type} (e : PyErr) (f : α → Except PyErr β) :
    (Except.error e >>= f : Except PyErr β) = .error e := rfl

theorem okBind {α β : Type} (a : α) (f : α → Except PyErr β) :
    (Except.ok a >>= f : Except PyErr β) = f a := rfl

/-- No evaluation of `DenseVariational.build` returns normally: either the
weight `kl_qp` dispatch fails, or `_sample_W` raises. -/
theorem buildDense_not_ok (l : DenseVariational) (ns batch idim : ℕ)
    (X : Fin ns → Fin batch → Fin idim → ℝ) :
    isOkE (buildDense l ns batch idim X) = false := by
  cases hkl : klQpCall (makePosterior l.qW l.full (some idim)) (makePrior l.pW) with
  | error e =>
    simp only [buildDense, hkl, errBind]
    rfl
  | ok u =>
    simp only [buildDense, hkl, okBind, sampleW_eq_error, errBind]
    rfl

/-- C9: `DenseVariational.__init__` stores its bias-distribution arguments as
`pb` and `qb`, so the attributes `prior_b` and `post_b` read by the bias
guard of `build` do not exist and their lookup raises `AttributeError`; and a
layer built with `use_bias = False` never returns normally from `build` on
any rank-3 input (the evaluation in fact raises already in `_sample_W`,
before the guard is reached). -/
theorem denseVariational_bias_free_never_returns :
    getattr denseVariationalInitAttrs "prior_b" = .error .attributeError ∧
    getattr denseVariationalInitAttrs "post_b" = .error .attributeError ∧
    ∀ (odim : ℕ) (reg : ℝ) (full : Bool) (pW pb qW qb : Option DistKind)
      (ns batch idim : ℕ) (X : Fin ns → Fin batch → Fin idim → ℝ),
      isOkE (buildDense ⟨odim, reg, full, false, pW, pb, qW, qb⟩ ns batch idim X) = false := by
  refine ⟨rfl, rfl, ?_⟩
  intro odim reg full pW pb qW qb ns batch idim X
  exact buildDense_not_ok ⟨odim, reg, full, false, pW, pb, qW, qb⟩ ns batch idim X

/-! `EmbedVariational.build` (lines 512 to 529 of `layers.py`). The tensor
expression built from the sampled weights is
`Net = transpose(gather(transpose(Wsamples, [1,2,0]), X[0, :, 0]), [2,0,1])`;
it is modelled here as a function of the stacked weight samples (the
`_sample_W` step itself raises, which claim C1 records) and of the rank-3
index tensor `X`, whose entries are category indices below `n_categories`. -/

/-- `tf.transpose(Wsamples, [1, 2, 0])`: `(ns, C, O) -> (C, O, ns)`. -/
def embedWsamplesT {ns C O : ℕ} (samples : Fin ns → Fin C → Fin O → ℝ) :
    Fin C → Fin O → Fin ns → ℝ :=
  fun c o s => samples s c o

/-- `tf.gather(Wt, idx)` on the first axis: `(C, O, ns)` gathered at a
`batch`-vector of indices gives `(batch, O, ns)`. -/
def embedGather {ns batch C O : ℕ} (Wt : Fin C → Fin O → Fin ns → ℝ)
    (idx : Fin batch → Fin C) : Fin batch → Fin O → Fin ns → ℝ :=
  fun r o s => Wt (idx r) o s

/-- The embedding output `Net` of `EmbedVariational.build`: the gather is
indexed by the slice `X[0, :, 0]` only, and the result is transposed back by
`[2, 0, 1]` to shape `(n_samples, batch, output_dim)`. -/
def embedNet {k batch C O : ℕ} (samples : Fin (k + 1) → Fin C → Fin O → ℝ)
    (X : Fin (k + 1) → Fin batch → Fin 1 → Fin C) : Fin (k + 1) → Fin batch → Fin O → ℝ :=
  fun s r o => embedGather (embedWsamplesT samples) (fun r2 => X 0 r2 0) r o s

/-- C10: the embedding output depends on the index tensor only through the
slice `X[0, :, 0]`: two index inputs of the same shape that agree on that
slice produce identical outputs, for every ensemble member, whatever the
index values in the slices with leading index greater than zero. -/
theorem embedNet_ignores_nonzero_slices {k batch C O : ℕ}
    (samples : Fin (k + 1) → Fin C → Fin O → ℝ)
    (X1 X2 : Fin (k + 1) → Fin batch → Fin 1 → Fin C)
    (h : ∀ r, X1 0 r 0 = X2 0 r 0) :
    embedNet samples X1 = embedNet samples X2 := by
  funext s r o
  simp [embedNet, embedGather, embedWsamplesT, h r]

/-- Two concrete index tensors for the C10 witness: they agree on the slice
with leading index `0` and differ everywhere on the slice with leading
index `1`. -/
def embedXa : Fin 2 → Fin 1 → Fin 1 → Fin 2 := fun _ _ _ => 0

def embedXb : Fin 2 → Fin 1 → Fin 1 → Fin 2 := fun s _ _ => if s = 0 then 0 else 1

def embedWex : Fin 2 → Fin 2 → Fin 1 → ℝ := fun s c _ => (s : ℕ) + 2 * (c : ℕ)

/-- Witness for C10: the two concrete index tensors agree on slice `0`,
differ on slice `1`, and produce the same embedding output. -/
theorem embedNet_ignores_nonzero_slices_witness :
    (∀ r : Fin 1, embedXa 0 r 0 = embedXb 0 r 0) ∧
    embedNet embedWex embedXa = embedNet embedWex embedXb :=
  ⟨fun _ => rfl,
   embedNet_ignores_nonzero_slices embedWex embedXa embedXb (fun _ => rfl)⟩

end Aboleth
